import Mathlib

/-!
Shallow embedding of the Carbon VSCode language server
(src/server/src/server.ts) for verifying the specification's claims.

The server is a single-file LSP sample: capability flags set at
initialization, a per-document settings cache backed by the client's
scoped-configuration request, a validation pass over document text, and
a static completion catalog with a resolve step keyed by an integer tag.

Modelling conventions:
* The asynchronous settings resolution (connection.workspace.getConfiguration)
  is modelled as an oracle `client : String → Option ExampleSettings`;
  `none` stands for "the client returned no usable value".
* `getDocumentSettings` is instrumented to also return the updated server
  state and the number of resolutions issued by that call (0 or 1), so that
  claims about "exactly one resolution" are statable.
* The `documentSettings` map and the document store are association lists
  keyed by URI strings, mirroring the TypeScript `Map`.
* Positions in diagnostic ranges are kept as character offsets into the
  text; `textDocument.positionAt` (library code outside this repository)
  converts offsets to line/character pairs and no claim concerns that
  conversion.
-/

set_option autoImplicit false

namespace CarbonLS

/-- The settings record of server.ts (interface ExampleSettings). -/
structure ExampleSettings where
  maxNumberOfProblems : Int
deriving DecidableEq

/-- server.ts line 91: defaultSettings = \x7b maxNumberOfProblems: 1000 \x7d. -/
def defaultSettings : ExampleSettings := { maxNumberOfProblems := 1000 }

/-- The value a settings resolution settles to: `none` models the client
returning no usable value (a null/undefined configuration). -/
abbrev ResolvedSettings := Option ExampleSettings

/-- Lookup in an association list keyed by strings (Map.get). -/
def lookupA {α : Type} : List (String × α) → String → Option α
  | [], _ => none
  | (k', v) :: rest, k => if k' = k then some v else lookupA rest k

/-- Insert/overwrite in an association list (Map.set). -/
def insertA {α : Type} : List (String × α) → String → α → List (String × α)
  | [], k, v => [(k, v)]
  | (k', v') :: rest, k, v =>
      if k' = k then (k, v) :: rest else (k', v') :: insertA rest k v

/-- Remove a key from an association list (Map.delete). -/
def eraseA {α : Type} : List (String × α) → String → List (String × α)
  | [], _ => []
  | (k', v') :: rest, k =>
      if k' = k then eraseA rest k else (k', v') :: eraseA rest k

/-- Membership test on the keys of an association list (Map.has). -/
def containsA {α : Type} (m : List (String × α)) (k : String) : Bool :=
  (lookupA m k).isSome

/-- The mutable state of the server session: the three capability flags
fixed at initialization, the global settings record, the per-document
settings cache (documentSettings) and the document store managed by the
TextDocuments library (uri to current text). -/
structure ServerState where
  hasConfigurationCapability : Bool
  hasDiagnosticRelatedInformationCapability : Bool
  globalSettings : ExampleSettings
  documentSettings : List (String × ResolvedSettings)
  openDocs : List (String × String)
deriving DecidableEq

/-- server.ts lines 111-124 (getDocumentSettings), instrumented: besides
the resolved settings it returns the updated state and how many
resolutions (calls to connection.workspace.getConfiguration) this call
issued. Without configuration capability the global record is returned at
once; otherwise a cache hit is returned as is, and a cache miss issues one
resolution whose result is stored keyed by the URI. -/
def getDocumentSettings (client : String → ResolvedSettings) (st : ServerState)
    (resource : String) : ResolvedSettings × ServerState × Nat :=
  if st.hasConfigurationCapability = false then
    (some st.globalSettings, st, 0)
  else
    match lookupA st.documentSettings resource with
    | some result => (result, st, 0)
    | none =>
        let result := client resource
        (result, { st with documentSettings := insertA st.documentSettings resource result }, 1)

/-- One published diagnostics message (connection.sendDiagnostics payload). -/
structure PublishDiagnosticsParams (Diag : Type) where
  uri : String
  diagnostics : List Diag
deriving DecidableEq

/-- Diagnostic severity (only Warning is used by the scan). -/
inductive DiagnosticSeverity where
  | Error
  | Warning
  | Information
  | Hint
deriving DecidableEq

/-- A text range, as character offsets into the document text (the source
converts these with positionAt, library code outside this repository). -/
structure TextRange where
  startOffset : Nat
  endOffset : Nat
deriving DecidableEq

/-- A related-information attachment (uri, range, message). -/
structure RelatedInfo where
  locUri : String
  locRange : TextRange
  message : String
deriving DecidableEq

/-- A diagnostic record as built by the (commented-out) scan. -/
structure Diagnostic where
  severity : DiagnosticSeverity
  range : TextRange
  message : String
  source : String
  relatedInformation : Option (List RelatedInfo)
deriving DecidableEq

/-- server.ts lines 137-182 (validateTextDocument): awaits the settings for
the document's URI (filling the cache as a side effect), then builds the
diagnostics list. The scan loop of lines 148-178 is commented out in the
source, so the list stays empty; the function ends by sending exactly one
sendDiagnostics message for the document's URI. Returns the updated state
and the list of published messages. -/
def validateTextDocument (client : String → ResolvedSettings) (st : ServerState)
    (uri text : String) : ServerState × List (PublishDiagnosticsParams Diagnostic) :=
  let resolved := getDocumentSettings client st uri
  let diagnostics : List Diagnostic := []
  (resolved.2.1, [{ uri := uri, diagnostics := diagnostics }])

/-- The inbound protocol events the embedded handlers react to. -/
inductive Event where
  | didOpen (uri text : String)
  | didChange (uri text : String)
  | didClose (uri : String)
  | didChangeConfiguration (incoming : Option ExampleSettings)
deriving DecidableEq

/-- Revalidation of a list of documents in order (documents.all().forEach
of server.ts line 108), threading the state and collecting publishes. -/
def revalidateAll (client : String → ResolvedSettings) (st : ServerState) :
    List (String × String) → ServerState × List (PublishDiagnosticsParams Diagnostic)
  | [] => (st, [])
  | (uri, text) :: rest =>
      let r := validateTextDocument client st uri text
      let r' := revalidateAll client r.1 rest
      (r'.1, r.2 ++ r'.2)

/-- The event dispatch of server.ts: onDidChangeContent (fired by the
TextDocuments manager on open and on change of a managed document)
validates the document; onDidClose (lines 126-129) deletes the settings
cache entry and the store entry; onDidChangeConfiguration (lines 97-109)
clears the cache when scoped configuration is supported, otherwise
replaces the global settings, then revalidates every open document. -/
def step (client : String → ResolvedSettings) (st : ServerState) :
    Event → ServerState × List (PublishDiagnosticsParams Diagnostic)
  | Event.didOpen uri text =>
      let st' := { st with openDocs := insertA st.openDocs uri text }
      validateTextDocument client st' uri text
  | Event.didChange uri text =>
      if containsA st.openDocs uri then
        let st' := { st with openDocs := insertA st.openDocs uri text }
        validateTextDocument client st' uri text
      else (st, [])
  | Event.didClose uri =>
      ({ st with openDocs := eraseA st.openDocs uri,
                 documentSettings := eraseA st.documentSettings uri }, [])
  | Event.didChangeConfiguration incoming =>
      let st' :=
        if st.hasConfigurationCapability then
          { st with documentSettings := [] }
        else
          { st with globalSettings := incoming.getD defaultSettings }
      revalidateAll client st' st'.openDocs

/-- The settings cache only holds entries for currently open documents. -/
def cacheInvB (st : ServerState) : Bool :=
  st.documentSettings.all (fun p => containsA st.openDocs p.1)

/-! ### The pattern scan of the commented-out block (server.ts lines 141-178)

The live code never runs this loop; it is embedded here so that the
claims about the scan can be settled against what the block and the
specification describe. The regex is \b[A-Z]\x7b2,\x7d\b over the text: a match
is a maximal run of word characters that consists entirely of uppercase
letters A-Z and has length at least two. -/

/-- A word character in the sense of the regex \b boundary: [A-Za-z0-9_]. -/
def isWordChar (c : Char) : Bool :=
  (('A' ≤ c && c ≤ 'Z') || ('a' ≤ c && c ≤ 'z') || ('0' ≤ c && c ≤ '9') || c = '_')

/-- An uppercase ASCII letter, the character class [A-Z]. -/
def isUpperAZ (c : Char) : Bool :=
  ('A' ≤ c && c ≤ 'Z')

/-- Collect the maximal runs of word characters with their start offsets;
`i` is the offset of the next character and `cur` the run in progress
(start offset, characters so far in reverse). -/
def wordRunsAux (i : Nat) (cur : Option (Nat × List Char)) :
    List Char → List (Nat × List Char)
  | [] =>
      match cur with
      | none => []
      | some (s, acc) => [(s, acc.reverse)]
  | c :: cs =>
      if isWordChar c then
        match cur with
        | none => wordRunsAux (i + 1) (some (i, [c])) cs
        | some (s, acc) => wordRunsAux (i + 1) (some (s, c :: acc)) cs
      else
        match cur with
        | none => wordRunsAux (i + 1) none cs
        | some (s, acc) => (s, acc.reverse) :: wordRunsAux (i + 1) none cs

/-- The matches of \b[A-Z]\x7b2,\x7d\b in the text, in order: each is the start
offset and the matched word. -/
def uppercaseMatches (text : String) : List (Nat × String) :=
  ((wordRunsAux 0 none text.toList).filter
      (fun r => decide (2 ≤ r.2.length) && r.2.all isUpperAZ)).map
    (fun r => (r.1, String.mk r.2))

/-- The diagnostic the commented-out loop builds for one match: Warning
severity, the match's range, the "is all uppercase" message, source "ex",
and, when the related-information capability is present, two secondary
locations pointing at the same range. -/
def mkUppercaseDiagnostic (hasRelatedInfo : Bool) (uri : String)
    (m : Nat × String) : Diagnostic :=
  let range : TextRange := { startOffset := m.1, endOffset := m.1 + m.2.length }
  { severity := DiagnosticSeverity.Warning
    range := range
    message := m.2 ++ " is all uppercase."
    source := "ex"
    relatedInformation :=
      if hasRelatedInfo then
        some [{ locUri := uri, locRange := range, message := "Spelling matters" },
              { locUri := uri, locRange := range, message := "Particularly for names" }]
      else none }

/-- The scan the commented-out block describes: diagnostics for the
matches in order, truncated once maxNumberOfProblems diagnostics have
been produced (the while condition problems < settings.maxNumberOfProblems). -/
def scanDiagnostics (hasRelatedInfo : Bool) (uri text : String)
    (maxProblems : Int) : List Diagnostic :=
  ((uppercaseMatches text).take maxProblems.toNat).map
    (mkUppercaseDiagnostic hasRelatedInfo uri)

/-! ### Completion service (server.ts lines 190-383) -/

/-- A cursor position in line/character coordinates. -/
structure Position where
  line : Nat
  character : Nat
deriving DecidableEq

/-- The parameter of the completion request: document URI and position. -/
structure TextDocumentPositionParams where
  uri : String
  position : Position
deriving DecidableEq

/-- CompletionItemKind.Text of the LSP enumeration. -/
def completionItemKindText : Nat := 1

/-- A completion item: label, kind, the opaque integer category tag
carried in the data field, and the optional detail and documentation set
by resolve (absent on the catalog items). -/
structure CompletionItem where
  label : String
  kind : Nat
  data : Option Int
  detail : Option String
  documentation : Option String
deriving DecidableEq

/-- Abbreviation for a catalog entry: label and category tag, kind Text,
no detail or documentation yet. -/
def catalogItem (label : String) (tag : Int) : CompletionItem :=
  { label := label, kind := completionItemKindText, data := some tag,
    detail := none, documentation := none }

/-- The static completion catalog of server.ts lines 195-351, in source
order: the VARIABLES block first, then the FUNCTIONS block. -/
def completionCatalog : List CompletionItem :=
  [ catalogItem "var" 3,
    catalogItem "f16" 2,
    catalogItem "f32" 2,
    catalogItem "f64" 2,
    catalogItem "f128" 2,
    catalogItem "BFloat16" 2,
    catalogItem "String" 4,
    catalogItem "StringView" 4,
    catalogItem "i8" 1,
    catalogItem "i16" 1,
    catalogItem "i32" 1,
    catalogItem "i64" 1,
    catalogItem "i128" 1,
    catalogItem "i256" 1,
    catalogItem "u8" 1,
    catalogItem "u16" 1,
    catalogItem "u32" 1,
    catalogItem "u64" 1,
    catalogItem "u128" 1,
    catalogItem "u256" 1,
    catalogItem "if" 6,
    catalogItem "while" 6,
    catalogItem "then" 6,
    catalogItem "else" 6,
    catalogItem "Carbon" 6,
    catalogItem "Swap" 6,
    catalogItem "Size" 6,
    catalogItem "fn" 6,
    catalogItem "Slice" 6,
    catalogItem "in" 6 ]

/-- server.ts lines 190-353 (connection.onCompletion): the position
parameter is ignored and the same catalog is returned for every request. -/
def onCompletion (_params : TextDocumentPositionParams) : List CompletionItem :=
  completionCatalog

/-- server.ts lines 357-383 (connection.onCompletionResolve): the if/else
chain on item.data, each branch setting detail and documentation; when no
branch matches the item is returned as it came in. -/
def onCompletionResolve (item : CompletionItem) : CompletionItem :=
  if item.data = some 1 then
    { item with
      detail := some "Carbon Signed Integer Type"
      documentation := some "Contains a integer value. You can set the number of bits by using i16, i32, i64, i128, or i256." }
  else if item.data = some 2 then
    { item with
      detail := some "Carbon Floating Point Type"
      documentation := some "This is a floating point" }
  else if item.data = some 3 then
    { item with
      detail := some "Carbon Var"
      documentation := some "A var declares a variable." }
  else if item.data = some 4 then
    { item with
      detail := some "Carbon String"
      documentation := some "A String is a byte sequence treated as containing UTF-8 encoded text. A StringView is a read only variation of a String." }
  else if item.data = some 5 then
    { item with
      detail := some "Carbon Floating Point Type"
      documentation := some "Contains a floating point value that rounds-to-nearest. You can set the number of bits by using f16, f32, f64, and f128. BFloat16 is also supported." }
  else if item.data = some 6 then
    { item with
      detail := some "Carbon Function"
      documentation := some "Function - Description to be added." }
  else item

/-- The CompletionDetail table the specification describes: for each
mapped category tag, the detail and documentation text that resolve
attaches; unmapped tags have no record. -/
def completionDetail : Int → Option (String × String)
  | 1 => some ("Carbon Signed Integer Type",
      "Contains a integer value. You can set the number of bits by using i16, i32, i64, i128, or i256.")
  | 2 => some ("Carbon Floating Point Type", "This is a floating point")
  | 3 => some ("Carbon Var", "A var declares a variable.")
  | 4 => some ("Carbon String",
      "A String is a byte sequence treated as containing UTF-8 encoded text. A StringView is a read only variation of a String.")
  | 5 => some ("Carbon Floating Point Type",
      "Contains a floating point value that rounds-to-nearest. You can set the number of bits by using f16, f32, f64, and f128. BFloat16 is also supported.")
  | 6 => some ("Carbon Function", "Function - Description to be added.")
  | _ => none

/-- A data field carrying one of the six mapped category tags. -/
def isMappedTag : Option Int → Bool
  | some d => d = 1 || d = 2 || d = 3 || d = 4 || d = 5 || d = 6
  | none => false

/-- A variable/type keyword tag (the VARIABLES block of the catalog). -/
def isVarTypeTag : Option Int → Bool
  | some d => d = 1 || d = 2 || d = 3 || d = 4
  | none => false

/-- A control/function keyword tag (the FUNCTIONS block of the catalog). -/
def isControlTag (d : Option Int) : Bool :=
  d = some 6

/-! ### Association list lemmas -/

theorem lookupA_insertA_self {α : Type} (m : List (String × α)) (k : String) (v : α) :
    lookupA (insertA m k v) k = some v := by
  induction m with
  | nil => simp [insertA, lookupA]
  | cons p rest ih =>
      obtain ⟨k', v'⟩ := p
      by_cases h : k' = k
      · simp [insertA, h, lookupA]
      · simp [insertA, h, lookupA, ih]

theorem lookupA_eraseA_self {α : Type} (m : List (String × α)) (k : String) :
    lookupA (eraseA m k) k = none := by
  induction m with
  | nil => simp [eraseA, lookupA]
  | cons p rest ih =>
      obtain ⟨k', v'⟩ := p
      by_cases h : k' = k
      · simp [eraseA, h, ih]
      · simp [eraseA, h, lookupA, ih]

theorem mem_of_mem_insertA {α : Type} (m : List (String × α)) (k : String) (v : α)
    (p : String × α) (hp : p ∈ insertA m k v) : p = (k, v) ∨ p ∈ m := by
  induction m with
  | nil => simpa [insertA] using hp
  | cons q rest ih =>
      obtain ⟨k', v'⟩ := q
      by_cases h : k' = k
      · simp only [insertA, h, if_pos rfl] at hp
        rcases List.mem_cons.mp hp with h1 | h1
        · exact Or.inl h1
        · exact Or.inr (List.mem_cons_of_mem _ h1)
      · simp only [insertA, if_neg h] at hp
        rcases List.mem_cons.mp hp with h1 | h1
        · exact Or.inr (List.mem_cons.mpr (Or.inl h1))
        · rcases ih h1 with h2 | h2
          · exact Or.inl h2
          · exact Or.inr (List.mem_cons_of_mem _ h2)

theorem mem_of_mem_eraseA {α : Type} (m : List (String × α)) (k : String)
    (p : String × α) (hp : p ∈ eraseA m k) : p ∈ m ∧ p.1 ≠ k := by
  induction m with
  | nil => simp [eraseA] at hp
  | cons q rest ih =>
      obtain ⟨k', v'⟩ := q
      by_cases h : k' = k
      · simp only [eraseA, if_pos h] at hp
        obtain ⟨h1, h2⟩ := ih hp
        exact ⟨List.mem_cons_of_mem _ h1, h2⟩
      · simp only [eraseA, if_neg h] at hp
        rcases List.mem_cons.mp hp with h1 | h1
        · refine ⟨List.mem_cons.mpr (Or.inl h1), ?_⟩
          rw [h1]
          exact h
        · obtain ⟨h2, h3⟩ := ih h1
          exact ⟨List.mem_cons_of_mem _ h2, h3⟩

theorem lookupA_eraseA_ne {α : Type} (m : List (String × α)) (k k' : String)
    (h : k' ≠ k) : lookupA (eraseA m k) k' = lookupA m k' := by
  induction m with
  | nil => simp [eraseA]
  | cons q rest ih =>
      obtain ⟨k'', v''⟩ := q
      by_cases hk : k'' = k
      · subst hk
        have hne : ¬ (k'' = k') := fun hc => h hc.symm
        simp [eraseA, lookupA, hne, ih]
      · simp only [eraseA, if_neg hk, lookupA]
        by_cases hk' : k'' = k'
        · simp [hk']
        · simp [hk', ih]

theorem lookupA_insertA_ne {α : Type} (m : List (String × α)) (k k' : String)
    (v : α) (h : k' ≠ k) : lookupA (insertA m k v) k' = lookupA m k' := by
  induction m with
  | nil =>
      have hne : ¬ (k = k') := fun hc => h hc.symm
      simp [insertA, lookupA, hne]
  | cons q rest ih =>
      obtain ⟨k'', v''⟩ := q
      by_cases hk : k'' = k
      · subst hk
        have hne : ¬ (k'' = k') := fun hc => h hc.symm
        simp [insertA, lookupA, hne]
      · simp only [insertA, if_neg hk, lookupA]
        by_cases hk' : k'' = k'
        · simp [hk']
        · simp [hk', ih]

theorem containsA_insertA_self {α : Type} (m : List (String × α)) (k : String) (v : α) :
    containsA (insertA m k v) k = true := by
  simp [containsA, lookupA_insertA_self]

theorem containsA_insertA_of_containsA {α : Type} (m : List (String × α))
    (k k' : String) (v : α) (h : containsA m k' = true) :
    containsA (insertA m k v) k' = true := by
  by_cases hk : k' = k
  · subst hk
    exact containsA_insertA_self m k' v
  · simpa [containsA, lookupA_insertA_ne m k k' v hk] using h

theorem containsA_eraseA_of_ne {α : Type} (m : List (String × α))
    (k k' : String) (h : k' ≠ k) (hc : containsA m k' = true) :
    containsA (eraseA m k) k' = true := by
  simpa [containsA, lookupA_eraseA_ne m k k' h] using hc

theorem containsA_of_mem {α : Type} (m : List (String × α)) (p : String × α)
    (hp : p ∈ m) : containsA m p.1 = true := by
  induction m with
  | nil => simp at hp
  | cons q rest ih =>
      obtain ⟨k, v⟩ := q
      rcases List.mem_cons.mp hp with h | h
      · rw [h]
        simp [containsA, lookupA]
      · by_cases hq : k = p.1
        · simp [containsA, lookupA, hq]
        · simpa [containsA, lookupA, hq] using ih h

/-! ### State lemmas for the settings cache invariant -/

theorem cacheInvB_iff (st : ServerState) :
    cacheInvB st = true ↔ ∀ p ∈ st.documentSettings, containsA st.openDocs p.1 = true := by
  simp [cacheInvB, List.all_eq_true]

theorem getDocumentSettings_openDocs (client : String → ResolvedSettings)
    (st : ServerState) (uri : String) :
    (getDocumentSettings client st uri).2.1.openDocs = st.openDocs := by
  unfold getDocumentSettings
  split
  · rfl
  · split <;> rfl

theorem getDocumentSettings_cap (client : String → ResolvedSettings)
    (st : ServerState) (uri : String) :
    (getDocumentSettings client st uri).2.1.hasConfigurationCapability
      = st.hasConfigurationCapability := by
  unfold getDocumentSettings
  split
  · rfl
  · split <;> rfl

theorem getDocumentSettings_inv (client : String → ResolvedSettings)
    (st : ServerState) (uri : String) (hinv : cacheInvB st = true)
    (hopen : containsA st.openDocs uri = true) :
    cacheInvB (getDocumentSettings client st uri).2.1 = true := by
  unfold getDocumentSettings
  split
  · exact hinv
  · split
    · exact hinv
    · rw [cacheInvB_iff]
      intro p hp
      rcases mem_of_mem_insertA _ _ _ _ hp with h | h
      · rw [h]
        exact hopen
      · exact (cacheInvB_iff st).mp hinv p h

theorem validateTextDocument_openDocs (client : String → ResolvedSettings)
    (st : ServerState) (uri text : String) :
    (validateTextDocument client st uri text).1.openDocs = st.openDocs :=
  getDocumentSettings_openDocs client st uri

theorem validateTextDocument_inv (client : String → ResolvedSettings)
    (st : ServerState) (uri text : String) (hinv : cacheInvB st = true)
    (hopen : containsA st.openDocs uri = true) :
    cacheInvB (validateTextDocument client st uri text).1 = true :=
  getDocumentSettings_inv client st uri hinv hopen

theorem revalidateAll_openDocs (client : String → ResolvedSettings)
    (docs : List (String × String)) :
    ∀ st : ServerState, (revalidateAll client st docs).1.openDocs = st.openDocs := by
  induction docs with
  | nil => intro st; rfl
  | cons d rest ih =>
      intro st
      obtain ⟨uri, text⟩ := d
      simp only [revalidateAll]
      rw [ih, validateTextDocument_openDocs]

theorem revalidateAll_inv (client : String → ResolvedSettings)
    (docs : List (String × String)) :
    ∀ st : ServerState, cacheInvB st = true →
      (∀ p ∈ docs, containsA st.openDocs p.1 = true) →
      cacheInvB (revalidateAll client st docs).1 = true := by
  induction docs with
  | nil => intro st hinv _; exact hinv
  | cons d rest ih =>
      intro st hinv hdocs
      obtain ⟨uri, text⟩ := d
      simp only [revalidateAll]
      have hopen : containsA st.openDocs uri = true :=
        hdocs (uri, text) (List.mem_cons.mpr (Or.inl rfl))
      refine ih _ (validateTextDocument_inv client st uri text hinv hopen) ?_
      intro p hp
      rw [validateTextDocument_openDocs]
      exact hdocs p (List.mem_cons_of_mem _ hp)

theorem step_inv (client : String → ResolvedSettings) (st : ServerState)
    (e : Event) (hinv : cacheInvB st = true) :
    cacheInvB (step client st e).1 = true := by
  cases e with
  | didOpen uri text =>
      refine validateTextDocument_inv client _ uri text ?_ ?_
      · rw [cacheInvB_iff]
        intro p hp
        exact containsA_insertA_of_containsA _ _ _ _ ((cacheInvB_iff st).mp hinv p hp)
      · exact containsA_insertA_self _ _ _
  | didChange uri text =>
      simp only [step]
      split
      · refine validateTextDocument_inv client _ uri text ?_ ?_
        · rw [cacheInvB_iff]
          intro p hp
          exact containsA_insertA_of_containsA _ _ _ _ ((cacheInvB_iff st).mp hinv p hp)
        · exact containsA_insertA_self _ _ _
      · exact hinv
  | didClose uri =>
      rw [cacheInvB_iff]
      intro p hp
      obtain ⟨h1, h2⟩ := mem_of_mem_eraseA _ _ _ hp
      exact containsA_eraseA_of_ne _ _ _ h2 ((cacheInvB_iff st).mp hinv p h1)
  | didChangeConfiguration incoming =>
      simp only [step]
      split
      · refine revalidateAll_inv client _ _ ?_ ?_
        · rw [cacheInvB_iff]
          intro p hp
          simp at hp
        · intro p hp
          exact containsA_of_mem _ _ hp
      · refine revalidateAll_inv client _ _ hinv ?_
        intro p hp
        exact containsA_of_mem _ _ hp

/-! ### Claim theorems -/

/-- C6: list returns the full static catalog unconditionally — any two
requests, whatever their URI and cursor position, get element-wise
identical item sequences — and the order is fixed: the catalog has 30
items, the first 20 carry variable/type tags, the last 10 carry the
control/function tag, no item carries both kinds of tag and every item
carries one of them, so every variable/type item precedes every
control/function item. -/
theorem claim_C6_list_static (p1 p2 : TextDocumentPositionParams) :
    onCompletion p1 = onCompletion p2
    ∧ onCompletion p1 = completionCatalog
    ∧ completionCatalog.length = 30
    ∧ (completionCatalog.take 20).all (fun it => isVarTypeTag it.data) = true
    ∧ (completionCatalog.drop 20).all (fun it => isControlTag it.data) = true
    ∧ completionCatalog.all
        (fun it => !(isVarTypeTag it.data && isControlTag it.data)) = true
    ∧ completionCatalog.all
        (fun it => isVarTypeTag it.data || isControlTag it.data) = true := by
  refine ⟨rfl, rfl, ?_, ?_, ?_, ?_, ?_⟩ <;> decide

/-- C3: for an item whose tag is in the closed mapped set, resolve looks
up the CompletionDetail record of that tag and returns the item with its
detail and documentation fields set from that record. -/
theorem claim_C3_resolve_mapped (item : CompletionItem) (d : Int)
    (hd : item.data = some d) (hm : isMappedTag (some d) = true) :
    ∃ det doc, completionDetail d = some (det, doc)
      ∧ onCompletionResolve item
          = { item with detail := some det, documentation := some doc } := by
  simp only [isMappedTag, Bool.or_eq_true, decide_eq_true_eq] at hm
  rcases hm with ((((h | h) | h) | h) | h) | h <;> subst h <;>
    exact ⟨_, _, rfl, by simp [onCompletionResolve, hd]⟩

/-- C3 witness: resolving the catalog's i32 item (tag 1) yields the
signed-integer detail record. -/
theorem claim_C3_resolve_mapped_witness :
    ∃ det doc, completionDetail 1 = some (det, doc)
      ∧ onCompletionResolve (catalogItem "i32" 1)
          = { catalogItem "i32" 1 with detail := some det, documentation := some doc } :=
  claim_C3_resolve_mapped (catalogItem "i32" 1) 1 rfl (by decide)

/-- C8: an item whose tag has no matching detail record (tag outside the
mapped set, or no tag at all) is returned unmodified by resolve. -/
theorem claim_C8_unmapped_passthrough (item : CompletionItem)
    (h : isMappedTag item.data = false) :
    onCompletionResolve item = item := by
  unfold onCompletionResolve
  cases hd : item.data with
  | none => simp [hd]
  | some d =>
      rw [hd] at h
      simp only [isMappedTag, Bool.or_eq_false_iff, decide_eq_false_iff_not] at h
      obtain ⟨⟨⟨⟨⟨h1, h2⟩, h3⟩, h4⟩, h5⟩, h6⟩ := h
      simp [hd, h1, h2, h3, h4, h5, h6]

/-- C8 witness: an item with the unmapped tag 7 passes through resolve
unchanged. -/
theorem claim_C8_unmapped_passthrough_witness :
    onCompletionResolve (catalogItem "mystery" 7) = catalogItem "mystery" 7 :=
  claim_C8_unmapped_passthrough (catalogItem "mystery" 7) (by decide)

/-- C7 counterexample: two items carry the same category tag 7 yet
resolve returns different detail fields for them (the tag is unmapped, so
each keeps the detail it arrived with), refuting that resolve's detail
output is a function of the tag alone. -/
theorem claim_C7_counterexample :
    ({ label := "x", kind := completionItemKindText, data := some 7,
       detail := some "left over", documentation := none } : CompletionItem).data
      = ({ label := "y", kind := completionItemKindText, data := some 7,
           detail := none, documentation := none } : CompletionItem).data
    ∧ (onCompletionResolve
        { label := "x", kind := completionItemKindText, data := some 7,
          detail := some "left over", documentation := none }).detail
      ≠ (onCompletionResolve
        { label := "y", kind := completionItemKindText, data := some 7,
          detail := none, documentation := none }).detail := by
  constructor
  · rfl
  · decide

/-- C7 amended: resolve's detail and documentation output is a function
of the category tag alone for every mapped tag — two items carrying the
same tag of the mapped set resolve to identical detail and documentation
fields; items with unmapped tags keep the fields they arrived with. -/
theorem claim_C7_resolve_pure_on_mapped (a b : CompletionItem) (d : Int)
    (ha : a.data = some d) (hb : b.data = some d)
    (hm : isMappedTag (some d) = true) :
    (onCompletionResolve a).detail = (onCompletionResolve b).detail
    ∧ (onCompletionResolve a).documentation = (onCompletionResolve b).documentation := by
  simp only [isMappedTag, Bool.or_eq_true, decide_eq_true_eq] at hm
  rcases hm with ((((h | h) | h) | h) | h) | h <;> subst h <;>
    exact ⟨by simp [onCompletionResolve, ha, hb], by simp [onCompletionResolve, ha, hb]⟩

/-- C7 amended witness: the i8 and u256 items both carry tag 1 and
resolve to the same detail and documentation. -/
theorem claim_C7_resolve_pure_on_mapped_witness :
    (onCompletionResolve (catalogItem "i8" 1)).detail
        = (onCompletionResolve (catalogItem "u256" 1)).detail
    ∧ (onCompletionResolve (catalogItem "i8" 1)).documentation
        = (onCompletionResolve (catalogItem "u256" 1)).documentation :=
  claim_C7_resolve_pure_on_mapped (catalogItem "i8" 1) (catalogItem "u256" 1) 1
    rfl rfl (by decide)

/-- C10: resolve only writes the detail and documentation fields — the
label, kind and data fields of the returned item are those of the input,
for every item, mapped or not. -/
theorem claim_C10_resolve_frame (item : CompletionItem) :
    (onCompletionResolve item).label = item.label
    ∧ (onCompletionResolve item).kind = item.kind
    ∧ (onCompletionResolve item).data = item.data := by
  unfold onCompletionResolve
  refine ⟨?_, ?_, ?_⟩ <;> (repeat' split) <;> rfl

/-- C4: without configuration capability get returns the global record at
once, touching neither cache nor client; with the capability, a cache
miss issues exactly one resolution whose result is stored keyed by the
URI and returned, and a cache hit returns the cached value with no new
resolution, whatever the client oracle would now answer. -/
theorem claim_C4_get_cache (client : String → ResolvedSettings)
    (st : ServerState) (uri : String) (v : ResolvedSettings) :
    getDocumentSettings client { st with hasConfigurationCapability := false } uri
      = (some st.globalSettings, { st with hasConfigurationCapability := false }, 0)
    ∧ getDocumentSettings client
        { st with hasConfigurationCapability := true,
                  documentSettings := eraseA st.documentSettings uri } uri
      = (client uri,
         { st with hasConfigurationCapability := true,
                   documentSettings :=
                     insertA (eraseA st.documentSettings uri) uri (client uri) },
         1)
    ∧ lookupA (getDocumentSettings client
        { st with hasConfigurationCapability := true,
                  documentSettings := eraseA st.documentSettings uri } uri).2.1.documentSettings
        uri = some (client uri)
    ∧ getDocumentSettings client
        { st with hasConfigurationCapability := true,
                  documentSettings := insertA st.documentSettings uri v } uri
      = (v, { st with hasConfigurationCapability := true,
                      documentSettings := insertA st.documentSettings uri v }, 0) := by
  refine ⟨?_, ?_, ?_, ?_⟩
  · simp [getDocumentSettings]
  · simp [getDocumentSettings, lookupA_eraseA_self]
  · simp [getDocumentSettings, lookupA_eraseA_self, lookupA_insertA_self]
  · simp [getDocumentSettings, lookupA_insertA_self]

/-- C2 counterexample: with scoped configuration supported and an empty
cache, a first resolution for the URI fails (the client returns no usable
value); the failed result is cached, and a subsequent get for the same
URI — even against a client that would now succeed — returns the cached
failure and issues zero fresh resolutions: no default settings record is
substituted and the next lookup does not retry, contradicting the claim
that the failure is confined to that one lookup. -/
theorem claim_C2_counterexample :
    (getDocumentSettings (fun _ => some { maxNumberOfProblems := 50 })
        (getDocumentSettings (fun _ => none)
          { hasConfigurationCapability := true,
            hasDiagnosticRelatedInformationCapability := false,
            globalSettings := defaultSettings,
            documentSettings := [],
            openDocs := [("file:///a", "x")] } "file:///a").2.1 "file:///a").1 = none
    ∧ (getDocumentSettings (fun _ => some { maxNumberOfProblems := 50 })
        (getDocumentSettings (fun _ => none)
          { hasConfigurationCapability := true,
            hasDiagnosticRelatedInformationCapability := false,
            globalSettings := defaultSettings,
            documentSettings := [],
            openDocs := [("file:///a", "x")] } "file:///a").2.1 "file:///a").2.2 = 0 := by
  constructor
  · rfl
  · rfl

/-- C2 amended: a failed scoped resolution is cached like any successful
one — get returns the failed (empty) value after issuing its single
resolution; the validation pass still completes and publishes its one
message, but no default settings record is substituted, and a subsequent
get for the same URI returns the cached failure with zero fresh
resolutions, whatever the client would now answer, until the entry is
removed, for instance when the document is closed. -/
theorem claim_C2_failed_resolution_cached (client client2 : String → ResolvedSettings)
    (st : ServerState) (uri text : String) (hfail : client uri = none) :
    getDocumentSettings client
        { st with hasConfigurationCapability := true,
                  documentSettings := eraseA st.documentSettings uri } uri
      = (none,
         { st with hasConfigurationCapability := true,
                   documentSettings := insertA (eraseA st.documentSettings uri) uri none },
         1)
    ∧ getDocumentSettings client2
        { st with hasConfigurationCapability := true,
                  documentSettings := insertA (eraseA st.documentSettings uri) uri none } uri
      = (none,
         { st with hasConfigurationCapability := true,
                   documentSettings := insertA (eraseA st.documentSettings uri) uri none },
         0)
    ∧ (validateTextDocument client
        { st with hasConfigurationCapability := true,
                  documentSettings := eraseA st.documentSettings uri } uri text).2
      = [{ uri := uri, diagnostics := [] }]
    ∧ lookupA (step client2
        { st with hasConfigurationCapability := true,
                  documentSettings := insertA (eraseA st.documentSettings uri) uri none }
        (Event.didClose uri)).1.documentSettings uri = none := by
  refine ⟨?_, ?_, rfl, ?_⟩
  · simp [getDocumentSettings, lookupA_eraseA_self, hfail]
  · simp [getDocumentSettings, lookupA_insertA_self]
  · simp [step, lookupA_eraseA_self]

/-- C2 amended witness: a concrete failing client against an empty cache. -/
theorem claim_C2_failed_resolution_cached_witness :
    getDocumentSettings (fun _ => none)
        { hasConfigurationCapability := true,
          hasDiagnosticRelatedInformationCapability := false,
          globalSettings := defaultSettings,
          documentSettings :=
            eraseA ([] : List (String × ResolvedSettings)) "file:///a",
          openDocs := [("file:///a", "x")] } "file:///a"
      = (none,
         { hasConfigurationCapability := true,
           hasDiagnosticRelatedInformationCapability := false,
           globalSettings := defaultSettings,
           documentSettings :=
             insertA (eraseA ([] : List (String × ResolvedSettings)) "file:///a")
               "file:///a" none,
           openDocs := [("file:///a", "x")] },
         1)
    ∧ getDocumentSettings (fun _ => some defaultSettings)
        { hasConfigurationCapability := true,
          hasDiagnosticRelatedInformationCapability := false,
          globalSettings := defaultSettings,
          documentSettings :=
            insertA (eraseA ([] : List (String × ResolvedSettings)) "file:///a")
              "file:///a" none,
          openDocs := [("file:///a", "x")] } "file:///a"
      = (none,
         { hasConfigurationCapability := true,
           hasDiagnosticRelatedInformationCapability := false,
           globalSettings := defaultSettings,
           documentSettings :=
             insertA (eraseA ([] : List (String × ResolvedSettings)) "file:///a")
               "file:///a" none,
           openDocs := [("file:///a", "x")] },
         0)
    ∧ (validateTextDocument (fun _ => none)
        { hasConfigurationCapability := true,
          hasDiagnosticRelatedInformationCapability := false,
          globalSettings := defaultSettings,
          documentSettings :=
            eraseA ([] : List (String × ResolvedSettings)) "file:///a",
          openDocs := [("file:///a", "x")] } "file:///a" "x").2
      = [{ uri := "file:///a", diagnostics := [] }]
    ∧ lookupA (step (fun _ => some defaultSettings)
        { hasConfigurationCapability := true,
          hasDiagnosticRelatedInformationCapability := false,
          globalSettings := defaultSettings,
          documentSettings :=
            insertA (eraseA ([] : List (String × ResolvedSettings)) "file:///a")
              "file:///a" none,
          openDocs := [("file:///a", "x")] }
        (Event.didClose "file:///a")).1.documentSettings "file:///a" = none := by
  have h := claim_C2_failed_resolution_cached (fun _ => none)
    (fun _ => some defaultSettings)
    { hasConfigurationCapability := true,
      hasDiagnosticRelatedInformationCapability := false,
      globalSettings := defaultSettings,
      documentSettings := [],
      openDocs := [("file:///a", "x")] } "file:///a" "x" rfl
  exact h

/-- C5: every call of validate ends by sending exactly one diagnostics
publish for the validated document's URI, carrying the computed (here
empty) diagnostic sequence — the publish happens even when the sequence
is empty, clearing any stale diagnostics. -/
theorem claim_C5_publish_unconditional (client : String → ResolvedSettings)
    (st : ServerState) (uri text : String) :
    (validateTextDocument client st uri text).2
      = [{ uri := uri, diagnostics := [] }] :=
  rfl

/-- C9: the close handler removes the closed URI's entry from the
settings cache; the cache-only-holds-open-documents invariant is
preserved by every event; and, with scoped configuration supported, a
subsequent get for the closed URI behaves as for a never-opened one,
issuing exactly one fresh resolution and returning the client's answer. -/
theorem claim_C9_close_forgets (client : String → ResolvedSettings)
    (st : ServerState) (uri : String) (e : Event)
    (hcap : st.hasConfigurationCapability = true) (hinv : cacheInvB st = true) :
    lookupA (step client st (Event.didClose uri)).1.documentSettings uri = none
    ∧ cacheInvB (step client st e).1 = true
    ∧ (getDocumentSettings client (step client st (Event.didClose uri)).1 uri).1
        = client uri
    ∧ (getDocumentSettings client (step client st (Event.didClose uri)).1 uri).2.2
        = 1 := by
  refine ⟨?_, step_inv client st e hinv, ?_, ?_⟩
  · simp [step, lookupA_eraseA_self]
  · simp [step, getDocumentSettings, hcap, lookupA_eraseA_self]
  · simp [step, getDocumentSettings, hcap, lookupA_eraseA_self]

/-- C9 witness: closing the lone open document of a concrete session
clears its cache entry and the next get re-resolves. -/
theorem claim_C9_close_forgets_witness :
    lookupA (step (fun _ => some defaultSettings)
        { hasConfigurationCapability := true,
          hasDiagnosticRelatedInformationCapability := false,
          globalSettings := defaultSettings,
          documentSettings := [("file:///a", some defaultSettings)],
          openDocs := [("file:///a", "AA")] }
        (Event.didClose "file:///a")).1.documentSettings "file:///a" = none
    ∧ cacheInvB (step (fun _ => some defaultSettings)
        { hasConfigurationCapability := true,
          hasDiagnosticRelatedInformationCapability := false,
          globalSettings := defaultSettings,
          documentSettings := [("file:///a", some defaultSettings)],
          openDocs := [("file:///a", "AA")] }
        (Event.didOpen "file:///b" "x")).1 = true
    ∧ (getDocumentSettings (fun _ => some defaultSettings)
        (step (fun _ => some defaultSettings)
          { hasConfigurationCapability := true,
            hasDiagnosticRelatedInformationCapability := false,
            globalSettings := defaultSettings,
            documentSettings := [("file:///a", some defaultSettings)],
            openDocs := [("file:///a", "AA")] }
          (Event.didClose "file:///a")).1 "file:///a").1
        = (fun _ => some defaultSettings) "file:///a"
    ∧ (getDocumentSettings (fun _ => some defaultSettings)
        (step (fun _ => some defaultSettings)
          { hasConfigurationCapability := true,
            hasDiagnosticRelatedInformationCapability := false,
            globalSettings := defaultSettings,
            documentSettings := [("file:///a", some defaultSettings)],
            openDocs := [("file:///a", "AA")] }
          (Event.didClose "file:///a")).1 "file:///a").2.2
        = 1 :=
  claim_C9_close_forgets (fun _ => some defaultSettings)
    { hasConfigurationCapability := true,
      hasDiagnosticRelatedInformationCapability := false,
      globalSettings := defaultSettings,
      documentSettings := [("file:///a", some defaultSettings)],
      openDocs := [("file:///a", "AA")] }
    "file:///a" (Event.didOpen "file:///b" "x") rfl (by decide)

/-- C1: the live validate publishes an empty diagnostics list for the
document "file:///a" with text "HELLO" under the default maximum of 1000
problems, although the scan the code's own comment documents (the block
commented out at server.ts lines 148-178) yields a Warning diagnostic for
the match HELLO there; the same scan saturates at the maximum-problem
bound (1 diagnostic out of 3 matches for "AA BB CC" with maximum 1). -/
theorem claim_C1_scan_commented_out :
    (validateTextDocument (fun _ => some defaultSettings)
        { hasConfigurationCapability := false,
          hasDiagnosticRelatedInformationCapability := false,
          globalSettings := defaultSettings,
          documentSettings := [],
          openDocs := [("file:///a", "HELLO")] } "file:///a" "HELLO").2
      = [{ uri := "file:///a", diagnostics := [] }]
    ∧ scanDiagnostics false "file:///a" "HELLO" defaultSettings.maxNumberOfProblems
      = [{ severity := DiagnosticSeverity.Warning,
           range := { startOffset := 0, endOffset := 5 },
           message := "HELLO is all uppercase.",
           source := "ex",
           relatedInformation := none }]
    ∧ (uppercaseMatches "AA BB CC").length = 3
    ∧ (scanDiagnostics false "file:///a" "AA BB CC" 1).length = 1 := by
  refine ⟨rfl, ?_, ?_, ?_⟩ <;> decide

end CarbonLS
